import Mathlib

/-!
Verification development for the fhevm SDK core
(packages/fhevm-sdk/src/core): a shallow embedding, in Lean 4, of the
instance handle state machine, the provisioning pipeline's cache
write-back step, network resolution, the ABI parameter builder, the
decryption helpers and the no-op relayer adapter, together with theorems
settling the specification's claims about them.

Conventions used throughout:
  * TypeScript `Promise` results and thrown exceptions become
    `Except String`; error messages are the exact message strings of the
    source.
  * `undefined` / `null` become `Option.none`; TypeScript string
    falsiness (`!s` true for `""` and `undefined`) is modelled
    explicitly where the source relies on it.
  * Byte arrays (`Uint8Array`) become `List (Fin 256)`.
  * External collaborators (the relayer backend, the signature
    load-or-sign flow, the store) are universally quantified function
    parameters; calls to them are recorded in explicit call logs where a
    claim speaks about how often or with which arguments they are
    invoked.
-/

namespace FhevmSdk

/-! ## core/adapters/relayer/noop.ts -/

/-- Model of `RelayerClientAdapter` as produced by `createNoopRelayerClient`:
each field holds the outcome of invoking the corresponding operation once
(`load()`, `init()`, `createInstance(...)`, `getSepoliaConfig()`).
Config objects are irrelevant to the adapter's behaviour and are
modelled as `Unit`. -/
structure RelayerClientModel where
  load : Except String Unit
  init : Except String Bool
  createInstance : Except String Unit
  getSepoliaConfig : Except String (Option Unit)

/-- Embedding of `createNoopRelayerClient(message?)`
(core/adapters/relayer/noop.ts lines 3-16): `load`, `init` and
`createInstance` are all the same `thrower` rejecting with
`message ?? default`; `getSepoliaConfig` is `() => undefined`. -/
def createNoopRelayerClient (message : Option String) : RelayerClientModel :=
  let errorMessage := message.getD "Relayer client is not available in this environment."
  { load := .error errorMessage
  , init := .error errorMessage
  , createInstance := .error errorMessage
  , getSepoliaConfig := .ok none }

/-! ## core/decryption.ts — publicDecrypt -/

/-- An `FHEDecryptRequest` (`{handle, contractAddress}`). -/
structure FHEDecryptRequest where
  handle : String
  contractAddress : String
  deriving Repr, DecidableEq

/-- Embedding of `publicDecrypt({instance, requests})`
(core/decryption.ts lines 53-80).  The instance's optional `decrypt`
member is modelled as `Option` of a function from the request list to the
backend outcome (`none` when `typeof instance.decrypt !== "function"`);
underlying rejections are `Error`s carrying a message string. -/
def publicDecrypt (decryptMember : Option (List FHEDecryptRequest → Except String Nat))
    (requests : List FHEDecryptRequest) : Except String Nat :=
  if requests.length = 0 then
    .error "publicDecrypt: requests array is empty"
  else
    match decryptMember with
    | none =>
        .error "publicDecrypt: FhevmInstance does not support public decryption. Ensure the injected relayer adapter exposes decrypt()."
    | some decryptFn =>
        let mutableReqs := requests.map fun r => { handle := r.handle, contractAddress := r.contractAddress }
        match decryptFn mutableReqs with
        | .ok result => .ok result
        | .error e => .error ("publicDecrypt failed: " ++ e)

/-! ## core/decryption.ts — userDecrypt -/

/-- A decryption authorization signature as consumed by `userDecrypt`
(the external `FhevmDecryptionSignature` collaborator's data). -/
structure DecryptionSig where
  privateKey : String
  publicKey : String
  signature : String
  contractAddresses : List String
  userAddress : String
  startTimestamp : Nat
  durationDays : Nat
  deriving Repr, DecidableEq

/-- `Array.from(new Set(xs))` for strings: a JavaScript `Set` iterates in
insertion order keeping the first occurrence of each element, so the
result is `xs` with every element after its first occurrence removed. -/
def dedupFirst : List String → List String
  | [] => []
  | a :: rest => a :: dedupFirst (rest.filter (fun b => b ≠ a))
termination_by l => l.length
decreasing_by
  simp only [List.length_cons]
  exact Nat.lt_succ_of_le (List.length_filter_le _ _)

/-- Embedding of `userDecrypt(params)` (core/decryption.ts lines 17-46).
The external `FhevmDecryptionSignature.loadOrSign` flow (instance,
signer, storage and key pair are fixed by the call site and folded into
the closure) is a parameter; the instance's `userDecrypt` backend call
is a parameter as well, and every invocation of it is recorded in the
returned call log so that theorems can speak about how often and with
which arguments it was invoked. -/
def userDecrypt (loadOrSign : List String → Option DecryptionSig)
    (backend : List FHEDecryptRequest → DecryptionSig → Nat)
    (requests : List FHEDecryptRequest) :
    Except String ((Nat × DecryptionSig) × List (List FHEDecryptRequest × DecryptionSig)) :=
  let uniqueAddresses := dedupFirst (requests.map (·.contractAddress))
  match loadOrSign uniqueAddresses with
  | none => .error "Failed to create FHE decryption signature"
  | some sig =>
      let mutableReqs := requests.map fun r => { handle := r.handle, contractAddress := r.contractAddress }
      let result := backend mutableReqs sig
      .ok ((result, sig), [(mutableReqs, sig)])

/-! ## core/instance/createInstance.ts — resolveNetwork -/

/-- `NetworkResolution`: `Mock{chainId, rpcUrl}` or `Real{chainId, rpcUrl?}`. -/
inductive NetworkResolution where
  | mock (chainId : Nat) (rpcUrl : String)
  | real (chainId : Nat) (rpcUrl : Option String)
  deriving Repr, DecidableEq

/-- TypeScript string truthiness of a possibly-undefined string:
`!s` is true exactly when `s` is `undefined` or `""`. -/
def strTruthy : Option String → Bool
  | none => false
  | some s => s ≠ ""

/-- The combined mock table `{31337: "http://localhost:8545", ...mockChains}`:
caller entries overlay (win over) the hardcoded default entry.  The
caller's `Record<number, string>` is modelled as a partial map. -/
def combinedMocks (mockChains : Nat → Option String) : Nat → Option String :=
  fun id =>
    match mockChains id with
    | some u => some u
    | none => if id = 31337 then some "http://localhost:8545" else none

/-- Embedding of `resolveNetwork(providerOrUrl, mockChains)`
(core/instance/createInstance.ts lines 268-292) after the chain id has
been obtained from `getChainId`.  `providerUrl` is `some url` when the
caller passed a literal RPC URL string and `none` when it passed a
wallet-style provider object (`rpcUrl` starts out as exactly that). -/
def resolveNetwork (chainId : Nat) (providerUrl : Option String)
    (mockChains : Nat → Option String) : Except String NetworkResolution :=
  match combinedMocks mockChains chainId with
  | some tableUrl =>
      let rpcUrl := if strTruthy providerUrl then providerUrl.getD "" else tableUrl
      if rpcUrl = "" then
        .error ("Mock chain " ++ toString chainId ++ " requires a RPC endpoint.")
      else
        .ok (.mock chainId rpcUrl)
  | none => .ok (.real chainId providerUrl)

/-! ## core/instance/handle.ts — the instance handle state machine

`createInstanceHandle` closes over four mutable variables (`status`,
`instance`, `error`, `abortController`).  `refresh` captures the freshly
created controller in `currentController` and, when the awaited
provisioning promise settles, runs a continuation over the closed-over
state.  We embed the closure state as `HandleState`; abort controllers
are numbered, `abortedIds` records which controllers' signals have been
fired; the asynchronous gap between starting `refresh` and its promise
settling is made explicit by splitting `refresh` into `refreshStart`
(everything before the `await`) and the two possible continuations
`refreshResolveSuccess` / `refreshResolveFailure` (the `try`/`catch`
tails), sequenced by an arbitrary interleaving (`HandleEvent` traces). -/

/-- `FhevmInstanceStatus`. -/
inductive HandleStatus where
  | idle
  | loading
  | ready
  | error
  deriving Repr, DecidableEq

/-- The closure state of one `createInstanceHandle` handle.  `instance`
and `error` are opaque payloads numbered by `Nat`; `abortController` is
the id of the controller currently stored in the closure variable, and
`abortedIds` the set of controller ids whose `abort()` has been called
(i.e. whose `signal.aborted` is true).  `nextId` numbers controllers in
creation order. -/
-- (`instance` is a reserved word in Lean; the source's `instance`
-- closure variable is the `instanceVal` field.)
structure HandleState where
  status : HandleStatus
  instanceVal : Option Nat
  error : Option Nat
  abortController : Option Nat
  abortedIds : List Nat
  nextId : Nat
  deriving Repr, DecidableEq

/-- The handle's initial closure state (`status = "idle"`, everything
else unset). -/
def initialHandleState : HandleState :=
  { status := .idle, instanceVal := none, error := none
  , abortController := none, abortedIds := [], nextId := 0 }

/-- `abort()` (handle.ts lines 42-46 / part_006 lines 25-29):
`abortController?.abort(); abortController = undefined; status = "idle"`.
Note that neither `instance` nor `error` is touched. -/
def abortOp (s : HandleState) : HandleState :=
  let aborted :=
    match s.abortController with
    | some c => c :: s.abortedIds
    | none => s.abortedIds
  { s with abortedIds := aborted, abortController := none, status := .idle }

/-- The synchronous prefix of `refresh()` (before the `await`):
`abort(); notify("loading"); error = undefined; abortController = new
AbortController(); const currentController = abortController`.  Returns
the new state together with the id captured as `currentController`. -/
def refreshStart (s : HandleState) : HandleState × Nat :=
  let s := abortOp s
  let s := { s with status := .loading, error := none }
  let cid := s.nextId
  ({ s with abortController := some cid, nextId := cid + 1 }, cid)

/-- The `try` tail of `refresh()` run when the provisioning promise of
the attempt that captured controller `cid` resolves with an instance:
`instance = result.instance; notify("ready")`.  The source performs no
staleness or abort check on this path, so `cid` is unused. -/
def refreshResolveSuccess (s : HandleState) (_cid : Nat) (inst : Nat) : HandleState :=
  { s with instanceVal := some inst, status := .ready }

/-- The `catch` tail of `refresh()` run when the provisioning promise of
the attempt that captured controller `cid` rejects:
`if (currentController.signal.aborted) { notify("idle"); return; }
error = err; notify("error")`. -/
def refreshResolveFailure (s : HandleState) (cid : Nat) (err : Nat) : HandleState :=
  if cid ∈ s.abortedIds then
    { s with status := .idle }
  else
    { s with error := some err, status := .error }

/-- One step of an interleaved execution against a handle.
`resolveSuccess cid inst` / `resolveFailure cid err` model the
provisioning promise of the attempt whose captured controller is `cid`
settling at that point of the interleaving (cancellation is cooperative,
so a superseded attempt's promise may still settle either way later). -/
inductive HandleEvent where
  | refresh
  | abortEvt
  | resolveSuccess (cid : Nat) (inst : Nat)
  | resolveFailure (cid : Nat) (err : Nat)
  deriving Repr, DecidableEq

/-- Run one event against the handle state. -/
def stepHandle (s : HandleState) : HandleEvent → HandleState
  | .refresh => (refreshStart s).1
  | .abortEvt => abortOp s
  | .resolveSuccess cid inst => refreshResolveSuccess s cid inst
  | .resolveFailure cid err => refreshResolveFailure s cid err

/-- Run a trace of events from the initial handle state. -/
def runHandle (events : List HandleEvent) : HandleState :=
  events.foldl stepHandle initialHandleState

/-! ## core/instance/createInstance.ts — wrapInstanceWithStore -/

/-- A byte array (`Uint8Array`). -/
abbrev Bytes := List (Fin 256)

/-- `PublicKeyRecord.publicKey`: `{id: string | null, data: bytes | null}`. -/
structure StoredPublicKey where
  id : Option String
  data : Option Bytes
  deriving Repr, DecidableEq

/-- `PublicKeyRecord.publicParams` entry for one size class:
`{publicParamsId: string, publicParams: bytes}`. -/
structure StoredPublicParams where
  publicParamsId : String
  publicParams : Bytes
  deriving Repr, DecidableEq

/-- `PublicKeyRecord` (core/config.ts lines 34-45).  The source stores
`publicParams` as a map from size-class label to entry; the only label
ever written is `"2048"`, so the map is modelled by the entry at that
label.  Both fields are optional (`undefined`/`null` are both `none`;
both are falsy in the completeness check the source performs). -/
structure PublicKeyRecord where
  publicKey : Option StoredPublicKey
  publicParams : Option StoredPublicParams
  deriving Repr, DecidableEq

/-- What the new instance's `getPublicKey()` resolves with
(`{publicKeyId, publicKey} | undefined` — the source guards with
`publicKey ? ... : undefined`). -/
structure FetchedPublicKey where
  publicKeyId : Option String
  publicKey : Option Bytes
  deriving Repr, DecidableEq

/-- What the new instance's `getPublicParams(2048)` resolves with
(`{publicParamsId, publicParams} | undefined` — the source guards with
`publicParams ? ... : null`). -/
structure FetchedPublicParams where
  publicParamsId : String
  publicParams : Bytes
  deriving Repr, DecidableEq

/-- The effects of the write-after-create step, recorded alongside its
result: whether public key material was fetched from the new instance
(`Promise.all([getPublicKey(), getPublicParams(2048)])`), and the
`publicKeyStore.set` call that was issued, if any, with its key and
record. -/
structure WrapEffects where
  fetched : Bool
  setCall : Option (String × PublicKeyRecord)
  deriving Repr, DecidableEq

/-- `s.startsWith(pre)`, expressed over the character list. -/
def strStartsWith (pre s : String) : Bool :=
  pre.toList.isPrefixOf s.toList

/-- `s.startsWith("0x")`. -/
def startsWith0x (s : String) : Bool :=
  strStartsWith "0x" s

/-- The record written back by `wrapInstanceWithStore`
(createInstance.ts lines 209-219): `publicKey` is mapped to
`{id: publicKeyId ?? null, data: publicKey ?? null}` when truthy and
`undefined` otherwise; `publicParams` is wrapped under the `"2048"`
label when truthy and `null` otherwise. -/
def writtenRecord (publicKey : Option FetchedPublicKey)
    (publicParams : Option FetchedPublicParams) : PublicKeyRecord :=
  { publicKey :=
      match publicKey with
      | some pk => some { id := pk.publicKeyId, data := pk.publicKey }
      | none => none
  , publicParams :=
      match publicParams with
      | some pp => some { publicParamsId := pp.publicParamsId, publicParams := pp.publicParams }
      | none => none }

/-- Embedding of `wrapInstanceWithStore(instance, config, chainId,
aclAddressOverride?)` (createInstance.ts lines 164-222) from the point
where the ACL address has been resolved (the override / chain-metadata /
Sepolia-config fallback chain yields `aclAddress`; `none` when none of
the three sources produced one).  `storePresent` is whether
`config.publicKeyStore` is set; `cached` is what `publicKeyStore.get`
resolves with; `instPublicKey` / `instPublicParams` are what the new
instance's fetchers resolve with; `setOutcome` is how the awaited
`publicKeyStore.set` call settles.  Returns the recorded effects
together with the result of the `await`ed call — note the `set` call is
awaited with no `try`/`catch`, so its rejection rejects the whole
step. -/
def wrapInstanceWithStore (inst : Nat) (storePresent : Bool)
    (aclAddress : Option String) (cached : Option PublicKeyRecord)
    (instPublicKey : Option FetchedPublicKey)
    (instPublicParams : Option FetchedPublicParams)
    (setOutcome : Except String Unit) : WrapEffects × Except String Nat :=
  if !storePresent then
    ({ fetched := false, setCall := none }, .ok inst)
  else
    match aclAddress with
    | none => ({ fetched := false, setCall := none }, .ok inst)
    | some acl =>
        if !startsWith0x acl then
          ({ fetched := false, setCall := none }, .ok inst)
        else
          match cached with
          | some record =>
              if record.publicKey.isSome && record.publicParams.isSome then
                ({ fetched := false, setCall := none }, .ok inst)
              else
                wrapWriteBack inst acl instPublicKey instPublicParams setOutcome
          | none => wrapWriteBack inst acl instPublicKey instPublicParams setOutcome
where
  /-- The fetch-and-write tail (lines 204-221). -/
  wrapWriteBack (inst : Nat) (acl : String)
      (instPublicKey : Option FetchedPublicKey)
      (instPublicParams : Option FetchedPublicParams)
      (setOutcome : Except String Unit) : WrapEffects × Except String Nat :=
    let record := writtenRecord instPublicKey instPublicParams
    match setOutcome with
    | .ok _ => ({ fetched := true, setCall := some (acl, record) }, .ok inst)
    | .error e => ({ fetched := true, setCall := some (acl, record) }, .error e)

/-- A cached record is complete for skip-refetch purposes exactly when
both `publicKey` and `publicParams` are truthy (`cached?.publicKey &&
cached.publicParams`, line 200). -/
def recordComplete : Option PublicKeyRecord → Bool
  | none => false
  | some r => r.publicKey.isSome && r.publicParams.isSome

/-! ## core/crypto (config.ts part 2) — toHex, buildParamsFromAbi -/

/-- Lowercase hex digit character for a value below 16
(`Number.prototype.toString(16)` digit alphabet). -/
def hexDigitChar (n : Nat) : Char :=
  if n < 10 then Char.ofNat (48 + n) else Char.ofNat (87 + n)

/-- `byte.toString(16).padStart(2, "0")` for a byte value. -/
def byteToHex (b : Fin 256) : String :=
  String.mk [hexDigitChar (b.val / 16), hexDigitChar (b.val % 16)]

/-- Embedding of `toHex` (config.ts lines 175-187) restricted to byte
arrays — the only values `buildParamsFromAbi` feeds it (`enc.handles`
entries and `enc.inputProof` are `Uint8Array`s).  `toHex([]) = "0x"`. -/
def toHex (value : Bytes) : String :=
  "0x" ++ String.join (value.map byteToHex)

/-- An ABI `inputs` entry (`{type, name?, internalType?}`).  `type` is
declared `string`; the source additionally guards against a falsy
`type`, which for a present string means `""`. -/
structure AbiInput where
  type : String
  name : Option String
  internalType : Option String
  deriving Repr, DecidableEq

/-- An ABI entry as consulted by `buildParamsFromAbi` (`{type, name,
inputs}`; only function entries are ever matched). -/
structure AbiItem where
  type : String
  name : String
  inputs : Option (List AbiInput)
  deriving Repr, DecidableEq

/-- `EncryptResult`: `{handles: Uint8Array[], inputProof: Uint8Array}`;
`inputProof` is optional because the source checks `!enc.inputProof`
before using it. -/
structure EncryptResult where
  handles : List Bytes
  inputProof : Option Bytes
  deriving Repr, DecidableEq

/-- `needle` occurs as a contiguous subsequence of `haystack`. -/
def charsContain (needle : List Char) : List Char → Bool
  | [] => needle.isEmpty
  | c :: rest => needle.isPrefixOf (c :: rest) || charsContain needle rest

/-- `needle` occurs as a substring of the lowercase form of `s`
(`s.toLowerCase().includes(needle)` for a lowercase needle). -/
def containsLower (needle : String) (s : String) : Bool :=
  charsContain needle.toList (s.toList.map Char.toLower)

/-- Embedding of `isProofParameter` (config.ts lines 196-202): the
parameter's declared name or internal type contains `"proof"`
case-insensitively (`?? ""` for absent fields). -/
def isProofParameter (input : AbiInput) : Bool :=
  containsLower "proof" (input.name.getD "") || containsLower "proof" (input.internalType.getD "")

/-- A contract call argument value: JavaScript `boolean`, `string` or
`bigint`. -/
inductive AbiValue where
  | bool (b : Bool)
  | str (s : String)
  | bigint (n : Nat)
  deriving Repr, DecidableEq

/-- `BigInt(s)` on a `"0x"`-prefixed string as produced by `toHex`:
parses the hex digits; `BigInt("0x")` (empty digit string) throws a
`SyntaxError`.  All digit characters produced by `toHex` are valid. -/
def parseHexBigInt (s : String) : Option Nat :=
  let digits := (s.drop 2).toList
  if digits.isEmpty then none
  else some (digits.foldl (fun acc c => acc * 16 + (c.toNat - (if c.toNat ≥ 97 then 87 else 48))) 0)

/-- `coerceUintToBigInt` (config.ts lines 204-207): `BigInt(toHex(raw))`;
a `none` result models the `SyntaxError` thrown on empty input. -/
def coerceUintToBigInt (raw : Bytes) : Option Nat :=
  parseHexBigInt (toHex raw)

/-- `coerceBool` (config.ts lines 209-219) on a byte array: true iff
some byte is nonzero. -/
def coerceBool (raw : Bytes) : Bool :=
  raw.any (fun b => b.val ≠ 0)

/-- `coerceAddressOrString` (config.ts lines 221-226) on a byte array:
`toHex(raw)`. -/
def coerceAddressOrString (raw : Bytes) : String :=
  toHex raw

/-- The per-parameter value coercion of `buildParamsFromAbi`
(config.ts lines 262-283), keyed on the declared `type`.  A `!type`
guard (empty string) and unknown types fall back to hex with a logged
warning (the warning itself has no modelled effect).  The `.error`
result models the uncaught `SyntaxError` from `BigInt` on empty hex. -/
def coerceByType (input : AbiInput) (raw : Bytes) : Except String AbiValue :=
  if input.type = "" then .ok (.str (toHex raw))
  else if input.type = "bool" then .ok (.bool (coerceBool raw))
  else if input.type = "address" ∨ input.type = "string" then .ok (.str (coerceAddressOrString raw))
  else if strStartsWith "uint" input.type ∨ input.type = "int256" ∨ strStartsWith "int" input.type then
    match coerceUintToBigInt raw with
    | some n => .ok (.bigint n)
    | none => .error "SyntaxError: Cannot convert 0x to a BigInt"
  else if strStartsWith "bytes" input.type then .ok (.str (toHex raw))
  else .ok (.str (toHex raw))

/-- The body of the `fn.inputs.map` loop of `buildParamsFromAbi`
(config.ts lines 237-283), with the closure-mutated `handleIndex` and
`proofConsumed` variables made explicit and exceptions turned into
`Except`.  `index` is the map index, used only in error messages. -/
def buildLoop (enc : EncryptResult) :
    List AbiInput → Nat → Bool → Nat → Except String (List AbiValue)
  | [], _, _, _ => .ok []
  | input :: rest, handleIndex, proofConsumed, index =>
      let paramLabel := input.name.getD ("#" ++ toString index)
      if isProofParameter input then
        match enc.inputProof with
        | none => .error ("buildParamsFromAbi: missing inputProof for parameter " ++ paramLabel)
        | some p => do
            let v ← coerceByType input p
            let vs ← buildLoop enc rest handleIndex true (index + 1)
            pure (v :: vs)
      else
        match enc.handles[handleIndex]? with
        | some h => do
            let v ← coerceByType input h
            let vs ← buildLoop enc rest (handleIndex + 1) proofConsumed (index + 1)
            pure (v :: vs)
        | none =>
            if !proofConsumed then
              match enc.inputProof with
              | some p => do
                  let v ← coerceByType input p
                  let vs ← buildLoop enc rest handleIndex true (index + 1)
                  pure (v :: vs)
              | none =>
                  .error ("buildParamsFromAbi: not enough encrypted handles for parameter " ++ paramLabel)
            else
              .error ("buildParamsFromAbi: not enough encrypted handles for parameter " ++ paramLabel)

/-- Embedding of `buildParamsFromAbi(enc, abi, functionName)`
(config.ts lines 228-284). -/
def buildParamsFromAbi (enc : EncryptResult) (abi : List AbiItem)
    (functionName : String) : Except String (List AbiValue) :=
  match abi.find? (fun item => item.type == "function" && item.name == functionName) with
  | none => .error ("Function ABI not found for " ++ functionName)
  | some fn =>
      match fn.inputs with
      | none => .ok []
      | some inputs =>
          if inputs.length = 0 then .ok []
          else buildLoop enc inputs 0 false 0

/-- The claim-side raw-byte selection, written from the specification's
words: walking the parameters in declaration order, a proof-nameable
parameter consumes the single input proof and every other parameter
consumes the next unconsumed handle in order.  (The `[]` case is
unreachable when there are exactly as many handles as non-proof
parameters.) -/
def selectedRaws (p : Bytes) : List AbiInput → List Bytes → List (AbiInput × Bytes)
  | [], _ => []
  | input :: rest, hs =>
      if isProofParameter input then
        (input, p) :: selectedRaws p rest hs
      else
        match hs with
        | h :: hs' => (input, h) :: selectedRaws p rest hs'
        | [] => []

/-- Coerce a selected parameter/raw pairing list, propagating the first
coercion failure — the claim-side counterpart of the loop's value
coercion. -/
def coerceAll : List (AbiInput × Bytes) → Except String (List AbiValue)
  | [] => .ok []
  | (input, raw) :: rest => do
      let v ← coerceByType input raw
      let vs ← coerceAll rest
      pure (v :: vs)

/-- The number of non-proof parameters of an input list. -/
def nonProofCount (inputs : List AbiInput) : Nat :=
  (inputs.filter (fun i => !isProofParameter i)).length

/-- The ABI of the specification's scenario `increment(externalEuint32,
bytes)`: one encrypted-integer parameter (Solidity external type
`bytes32` with internal type `externalEuint32`) and one anonymous
`bytes` parameter, neither of which is nameable as the proof. -/
def incrementAbi : List AbiItem :=
  [{ type := "function", name := "increment",
     inputs := some
       [ { type := "bytes32", name := some "value", internalType := some "externalEuint32" }
       , { type := "bytes", name := none, internalType := none } ] }]

/-! ## Theorems -/

/-- C9 counterexample: the claim says every operation of the no-op
relayer adapter, `getSepoliaConfig` included, fails with the configured
(or default) message.  With no configured message, `getSepoliaConfig`
does not fail: it returns `undefined` (`() => undefined`, noop.ts line
14), not an error carrying the default message. -/
theorem noop_getSepoliaConfig_not_failing :
    (createNoopRelayerClient none).getSepoliaConfig = .ok none ∧
    (createNoopRelayerClient none).getSepoliaConfig ≠
      .error "Relayer client is not available in this environment." :=
  ⟨rfl, fun h => Except.noConfusion h⟩

/-- C9 (amended): `load`, `init` and `createInstance` of the no-op
relayer adapter all fail with the configured message, or with the
default message when none is configured; `getSepoliaConfig` never fails
and returns `undefined`. -/
theorem noopRelayerClient_operations (m : String) :
    (createNoopRelayerClient (some m)).load = .error m ∧
    (createNoopRelayerClient (some m)).init = .error m ∧
    (createNoopRelayerClient (some m)).createInstance = .error m ∧
    (createNoopRelayerClient (some m)).getSepoliaConfig = .ok none ∧
    (createNoopRelayerClient none).load =
      .error "Relayer client is not available in this environment." ∧
    (createNoopRelayerClient none).init =
      .error "Relayer client is not available in this environment." ∧
    (createNoopRelayerClient none).createInstance =
      .error "Relayer client is not available in this environment." ∧
    (createNoopRelayerClient none).getSepoliaConfig = .ok none :=
  ⟨rfl, rfl, rfl, rfl, rfl, rfl, rfl, rfl⟩

/-- Witness for C9 (amended) at a concrete configured message. -/
theorem noopRelayerClient_operations_witness :
    (createNoopRelayerClient (some "not wired up")).load = .error "not wired up" ∧
    (createNoopRelayerClient (some "not wired up")).init = .error "not wired up" ∧
    (createNoopRelayerClient (some "not wired up")).createInstance = .error "not wired up" ∧
    (createNoopRelayerClient (some "not wired up")).getSepoliaConfig = .ok none ∧
    (createNoopRelayerClient none).load =
      .error "Relayer client is not available in this environment." ∧
    (createNoopRelayerClient none).init =
      .error "Relayer client is not available in this environment." ∧
    (createNoopRelayerClient none).createInstance =
      .error "Relayer client is not available in this environment." ∧
    (createNoopRelayerClient none).getSepoliaConfig = .ok none :=
  noopRelayerClient_operations "not wired up"

/-- C7: `publicDecrypt` with zero requests fails with the
empty-request-list error for every instance (so before any member of the
instance is accessed); with a non-empty list on an instance lacking a
`decrypt` member it fails with the capability-missing error; and a
failure of the instance's `decrypt` call is rethrown as a
public-decrypt-failed error carrying the original message. -/
theorem publicDecrypt_error_handling :
    (∀ d, publicDecrypt d [] = .error "publicDecrypt: requests array is empty") ∧
    (∀ reqs : List FHEDecryptRequest, reqs ≠ [] →
      publicDecrypt none reqs =
        .error "publicDecrypt: FhevmInstance does not support public decryption. Ensure the injected relayer adapter exposes decrypt().") ∧
    (∀ (f : List FHEDecryptRequest → Except String Nat) (reqs : List FHEDecryptRequest) (e : String),
      reqs ≠ [] →
      f (reqs.map fun r => { handle := r.handle, contractAddress := r.contractAddress }) = .error e →
      publicDecrypt (some f) reqs = .error ("publicDecrypt failed: " ++ e)) := by
  refine ⟨fun d => rfl, fun reqs h => ?_, fun f reqs e h hf => ?_⟩
  · simp [publicDecrypt, List.length_eq_zero, h]
  · have hmap :
        (reqs.map fun r => ({ handle := r.handle, contractAddress := r.contractAddress } :
          FHEDecryptRequest)) = reqs := by
      simp
    rw [hmap] at hf
    simp [publicDecrypt, List.length_eq_zero, h, hf]

/-- Witness for C7 at concrete inputs. -/
theorem publicDecrypt_error_handling_witness :
    publicDecrypt none [] = .error "publicDecrypt: requests array is empty" ∧
    publicDecrypt none [{ handle := "h", contractAddress := "0x1" }] =
      .error "publicDecrypt: FhevmInstance does not support public decryption. Ensure the injected relayer adapter exposes decrypt()." ∧
    publicDecrypt (some fun _ => .error "boom") [{ handle := "h", contractAddress := "0x1" }] =
      .error "publicDecrypt failed: boom" :=
  ⟨publicDecrypt_error_handling.1 none,
   publicDecrypt_error_handling.2.1 _ (by simp),
   publicDecrypt_error_handling.2.2 _ _ "boom" (by simp) rfl⟩

/-- C2 counterexample: with the store present, a resolved ACL address
and an empty cache, a rejection of the awaited `publicKeyStore.set` call
rejects the whole write-after-create step, so provisioning fails instead
of returning the already-created instance (`await
config.publicKeyStore.set(...)` has no `try`/`catch`,
createInstance.ts line 209). -/
theorem cacheWriteFailure_fails_provisioning :
    (wrapInstanceWithStore 7 true (some "0xabc") none none none (.error "cache write failed")).2 =
      .error "cache write failed" ∧
    (wrapInstanceWithStore 7 true (some "0xabc") none none none (.error "cache write failed")).2 ≠
      .ok 7 := by
  have h1 :
      (wrapInstanceWithStore 7 true (some "0xabc") none none none
        (.error "cache write failed")).2 = .error "cache write failed" := rfl
  exact ⟨h1, fun h => Except.noConfusion (h1.symm.trans h)⟩

/-- C2 (amended): the cache write is awaited as part of provisioning, so
when the cache is incomplete a rejection of `publicKeyStore.set`
propagates out of `wrapInstanceWithStore` (and hence out of
`createConfiguredFhevmInstance`, which awaits it on the real path);
when the write succeeds the already-created instance is returned. -/
theorem wrapInstanceWithStore_set_rejection_propagates
    (inst : Nat) (acl : String) (cached : Option PublicKeyRecord)
    (pk : Option FetchedPublicKey) (pp : Option FetchedPublicParams) (e : String)
    (hacl : startsWith0x acl = true) (hincomplete : recordComplete cached = false) :
    (wrapInstanceWithStore inst true (some acl) cached pk pp (.error e)).2 = .error e ∧
    (wrapInstanceWithStore inst true (some acl) cached pk pp (.ok ())).2 = .ok inst := by
  cases cached with
  | none =>
      simp [wrapInstanceWithStore, hacl, wrapInstanceWithStore.wrapWriteBack]
  | some record =>
      simp only [recordComplete] at hincomplete
      simp [wrapInstanceWithStore, hacl, hincomplete, wrapInstanceWithStore.wrapWriteBack]

/-- Witness for C2 (amended) at concrete inputs. -/
theorem wrapInstanceWithStore_set_rejection_propagates_witness :
    (wrapInstanceWithStore 7 true (some "0xabc") none none none (.error "disk")).2 = .error "disk" ∧
    (wrapInstanceWithStore 7 true (some "0xabc") none none none (.ok ())).2 = .ok 7 :=
  wrapInstanceWithStore_set_rejection_propagates 7 "0xabc" none none none "disk"
    (by decide) (by decide)

/-- C8: in the write-after-create step (store present, ACL address
resolved to a `0x` string), a cached record suppresses the fetch and the
cache write exactly when it is complete (both `publicKey` and
`publicParams` present): a complete record leads to no fetch and no
`set` call, with the instance returned untouched, while a missing or
partial record leads to a fetch from the new instance and a `set` call
under the ACL address carrying the fetched key material wrapped under
the `"2048"` size class. -/
theorem wrapInstanceWithStore_skip_refetch
    (inst : Nat) (acl : String) (cached : Option PublicKeyRecord)
    (pk : Option FetchedPublicKey) (pp : Option FetchedPublicParams)
    (setOutcome : Except String Unit)
    (hacl : startsWith0x acl = true) :
    (recordComplete cached = true →
      wrapInstanceWithStore inst true (some acl) cached pk pp setOutcome =
        ({ fetched := false, setCall := none }, .ok inst)) ∧
    (recordComplete cached = false →
      (wrapInstanceWithStore inst true (some acl) cached pk pp setOutcome).1 =
        { fetched := true, setCall := some (acl, writtenRecord pk pp) }) := by
  constructor
  · intro hcomplete
    cases cached with
    | none => simp [recordComplete] at hcomplete
    | some record =>
        simp only [recordComplete] at hcomplete
        simp [wrapInstanceWithStore, hacl, hcomplete]
  · intro hincomplete
    cases cached with
    | none =>
        cases setOutcome <;>
          simp [wrapInstanceWithStore, hacl, wrapInstanceWithStore.wrapWriteBack]
    | some record =>
        simp only [recordComplete] at hincomplete
        cases setOutcome <;>
          simp [wrapInstanceWithStore, hacl, hincomplete, wrapInstanceWithStore.wrapWriteBack]

/-- Witness for C8 at concrete inputs (a partial record: `publicKey`
present, `publicParams` absent). -/
theorem wrapInstanceWithStore_skip_refetch_witness :
    ((recordComplete (some { publicKey := some { id := none, data := none }, publicParams := none }) = true →
      wrapInstanceWithStore 7 true (some "0xabc")
          (some { publicKey := some { id := none, data := none }, publicParams := none })
          none none (.ok ()) =
        ({ fetched := false, setCall := none }, .ok 7)) ∧
    (recordComplete (some { publicKey := some { id := none, data := none }, publicParams := none }) = false →
      (wrapInstanceWithStore 7 true (some "0xabc")
          (some { publicKey := some { id := none, data := none }, publicParams := none })
          none none (.ok ())).1 =
        { fetched := true, setCall := some ("0xabc", writtenRecord none none) })) :=
  wrapInstanceWithStore_skip_refetch 7 "0xabc"
    (some { publicKey := some { id := none, data := none }, publicParams := none })
    none none (.ok ()) (by decide)

/-- C1 counterexample: two `refresh()` calls in quick succession
(controllers 0 and 1), the second attempt resolves successfully with
instance 22, then the superseded first attempt's promise resolves
successfully with instance 11.  The success continuation performs no
staleness check (handle.ts lines 62-63), so the first attempt's late
resolution overwrites the handle state produced by the second attempt:
the visible instance ends as 11, not 22. -/
theorem superseded_refresh_success_overwrites :
    (runHandle [.refresh, .refresh, .resolveSuccess 1 22]).instanceVal = some 22 ∧
    (runHandle [.refresh, .refresh, .resolveSuccess 1 22, .resolveSuccess 0 11]).instanceVal =
      some 11 ∧
    (runHandle [.refresh, .refresh, .resolveSuccess 1 22, .resolveSuccess 0 11]).status =
      .ready := by
  decide

/-- C1 (amended): after two `refresh()` calls in quick succession, only
the failure path is guarded against supersession: the superseded first
attempt's late rejection never sets the error state (the catch tail sees
its captured controller aborted and resets status to idle, leaving
instance and error as the second attempt left them), but the superseded
first attempt's late successful resolution does mutate visible state,
overwriting the instance and setting status ready. -/
theorem refresh_supersession_behaviour (i1 i2 e1 : Nat) :
    (runHandle [.refresh, .refresh, .resolveSuccess 1 i2, .resolveFailure 0 e1]).status = .idle ∧
    (runHandle [.refresh, .refresh, .resolveSuccess 1 i2, .resolveFailure 0 e1]).error = none ∧
    (runHandle [.refresh, .refresh, .resolveSuccess 1 i2, .resolveFailure 0 e1]).instanceVal =
      some i2 ∧
    (runHandle [.refresh, .refresh, .resolveSuccess 1 i2, .resolveSuccess 0 i1]).instanceVal =
      some i1 ∧
    (runHandle [.refresh, .refresh, .resolveSuccess 1 i2, .resolveSuccess 0 i1]).status =
      .ready := by
  refine ⟨?_, ?_, ?_, ?_, ?_⟩ <;>
    simp [runHandle, stepHandle, initialHandleState, refreshStart, abortOp,
      refreshResolveSuccess, refreshResolveFailure]

/-- Witness for C1 (amended) at concrete instance and error payloads. -/
theorem refresh_supersession_behaviour_witness :
    (runHandle [.refresh, .refresh, .resolveSuccess 1 2, .resolveFailure 0 9]).status = .idle ∧
    (runHandle [.refresh, .refresh, .resolveSuccess 1 2, .resolveFailure 0 9]).error = none ∧
    (runHandle [.refresh, .refresh, .resolveSuccess 1 2, .resolveFailure 0 9]).instanceVal =
      some 2 ∧
    (runHandle [.refresh, .refresh, .resolveSuccess 1 2, .resolveSuccess 0 1]).instanceVal =
      some 1 ∧
    (runHandle [.refresh, .refresh, .resolveSuccess 1 2, .resolveSuccess 0 1]).status =
      .ready :=
  refresh_supersession_behaviour 1 2 9

/-- C4 counterexample: a handle whose first attempt resolved with
instance 5 and whose second `refresh()` is in flight (`status ==
loading`).  `abort()` sets status to idle but does not clear the
instance (it only fires the controller and resets status, handle.ts
lines 42-46), so the handle is left idle with instance 5 still visible;
moreover, if the aborted in-flight attempt later resolves successfully,
the unguarded success continuation sets status ready again, so the idle
state does not persist. -/
theorem abort_does_not_clear_instance :
    (runHandle [.refresh, .resolveSuccess 0 5, .refresh]).status = .loading ∧
    (runHandle [.refresh, .resolveSuccess 0 5, .refresh, .abortEvt]).status = .idle ∧
    (runHandle [.refresh, .resolveSuccess 0 5, .refresh, .abortEvt]).instanceVal = some 5 ∧
    (runHandle [.refresh, .abortEvt, .resolveSuccess 0 7]).status = .ready ∧
    (runHandle [.refresh, .abortEvt, .resolveSuccess 0 7]).instanceVal = some 7 := by
  decide

/-- C4 (amended): `abort()` always sets status to idle and leaves both
`instance` and `error` exactly as they were — in particular, while
loading the error is already cleared (refresh cleared it on entry) but a
previously set instance is retained; and the idle state persists only as
long as the in-flight attempt does not resolve successfully, since a
late successful resolution sets status ready and overwrites the
instance. -/
theorem abort_behaviour (s : HandleState) (i j : Nat) :
    (abortOp s).status = .idle ∧
    (abortOp s).instanceVal = s.instanceVal ∧
    (abortOp s).error = s.error ∧
    (runHandle [.refresh, .resolveSuccess 0 i, .refresh, .abortEvt]).status = .idle ∧
    (runHandle [.refresh, .resolveSuccess 0 i, .refresh, .abortEvt]).instanceVal = some i ∧
    (runHandle [.refresh, .resolveSuccess 0 i, .refresh, .abortEvt]).error = none ∧
    (runHandle [.refresh, .abortEvt, .resolveSuccess 0 j]).status = .ready ∧
    (runHandle [.refresh, .abortEvt, .resolveSuccess 0 j]).instanceVal = some j := by
  refine ⟨rfl, rfl, rfl, ?_, ?_, ?_, ?_, ?_⟩ <;>
    simp [runHandle, stepHandle, initialHandleState, refreshStart, abortOp,
      refreshResolveSuccess, refreshResolveFailure]

/-- Witness for C4 (amended) at a concrete state and payloads. -/
theorem abort_behaviour_witness :
    (abortOp initialHandleState).status = .idle ∧
    (abortOp initialHandleState).instanceVal = initialHandleState.instanceVal ∧
    (abortOp initialHandleState).error = initialHandleState.error ∧
    (runHandle [.refresh, .resolveSuccess 0 3, .refresh, .abortEvt]).status = .idle ∧
    (runHandle [.refresh, .resolveSuccess 0 3, .refresh, .abortEvt]).instanceVal = some 3 ∧
    (runHandle [.refresh, .resolveSuccess 0 3, .refresh, .abortEvt]).error = none ∧
    (runHandle [.refresh, .abortEvt, .resolveSuccess 0 4]).status = .ready ∧
    (runHandle [.refresh, .abortEvt, .resolveSuccess 0 4]).instanceVal = some 4 :=
  abort_behaviour initialHandleState 3 4

/-- Any entry of the combined mock table is a non-empty URL when every
caller-supplied entry is non-empty (the seeded default entry is
non-empty by construction). -/
theorem combinedMocks_ne_empty (mockChains : Nat → Option String)
    (htable : ∀ id u, mockChains id = some u → u ≠ "")
    (id : Nat) (t : String) (h : combinedMocks mockChains id = some t) : t ≠ "" := by
  cases hm : mockChains id with
  | some u =>
      have hcm : combinedMocks mockChains id = some u := by simp [combinedMocks, hm]
      have htu : u = t := Option.some.inj (hcm.symm.trans h)
      subst htu
      exact htable id u hm
  | none =>
      have hcm : combinedMocks mockChains id =
          if id = 31337 then some "http://localhost:8545" else none := by
        simp [combinedMocks, hm]
      rw [hcm] at h
      by_cases h31337 : id = 31337
      · rw [if_pos h31337] at h
        cases h
        decide
      · rw [if_neg h31337] at h
        exact Option.noConfusion h

/-- C5: for every caller-supplied mock-chain table (with usable, i.e.
non-empty, RPC URLs) and every resolved chain id, `resolveNetwork`
classifies the id as Mock exactly when it is a key of the combined table
(the caller's table overlaid on the default entry `31337 →
http://localhost:8545`, caller entries winning on conflict) and as Real
otherwise, even when the caller passed a literal RPC URL; a Mock
classification carries the caller's literal URL when one was passed and
the table's URL otherwise. -/
theorem resolveNetwork_mock_classification
    (chainId : Nat) (providerUrl : Option String) (mockChains : Nat → Option String)
    (hurl : providerUrl = none ∨ ∃ u, providerUrl = some u ∧ u ≠ "")
    (htable : ∀ id u, mockChains id = some u → u ≠ "") :
    ((∃ r, resolveNetwork chainId providerUrl mockChains = .ok (.mock chainId r)) ↔
      combinedMocks mockChains chainId ≠ none) ∧
    (combinedMocks mockChains chainId = none →
      resolveNetwork chainId providerUrl mockChains = .ok (.real chainId providerUrl)) ∧
    (∀ u, providerUrl = some u → combinedMocks mockChains chainId ≠ none →
      resolveNetwork chainId providerUrl mockChains = .ok (.mock chainId u)) ∧
    (providerUrl = none → ∀ t, combinedMocks mockChains chainId = some t →
      resolveNetwork chainId providerUrl mockChains = .ok (.mock chainId t)) ∧
    (∀ id u, mockChains id = some u → combinedMocks mockChains id = some u) ∧
    (mockChains 31337 = none →
      combinedMocks mockChains 31337 = some "http://localhost:8545") ∧
    (∀ id, id ≠ 31337 → mockChains id = none → combinedMocks mockChains id = none) := by
  have hmockSome : ∀ t u, combinedMocks mockChains chainId = some t → providerUrl = some u →
      u ≠ "" → resolveNetwork chainId providerUrl mockChains = .ok (.mock chainId u) := by
    intro t u hc hu hune
    subst hu
    simp [resolveNetwork, hc, strTruthy, hune]
  have hmockNone : ∀ t, combinedMocks mockChains chainId = some t → providerUrl = none →
      resolveNetwork chainId providerUrl mockChains = .ok (.mock chainId t) := by
    intro t hc hn
    subst hn
    have ht : t ≠ "" := combinedMocks_ne_empty mockChains htable chainId t hc
    simp [resolveNetwork, hc, strTruthy, ht]
  refine ⟨?_, ?_, ?_, ?_, ?_, ?_, ?_⟩
  · constructor
    · rintro ⟨r, hr⟩ hnone
      rw [resolveNetwork] at hr
      rw [hnone] at hr
      simp at hr
    · intro hne
      cases hc : combinedMocks mockChains chainId with
      | none => exact absurd hc hne
      | some t =>
          rcases hurl with hnone | ⟨u, hu, hune⟩
          · exact ⟨t, hmockNone t hc hnone⟩
          · exact ⟨u, hmockSome t u hc hu hune⟩
  · intro hnone
    rw [resolveNetwork]
    rw [hnone]
  · intro u hu hne
    cases hc : combinedMocks mockChains chainId with
    | none => exact absurd hc hne
    | some t =>
        rcases hurl with hnone | ⟨u', hu', hune⟩
        · rw [hnone] at hu; exact Option.noConfusion hu
        · have huu : u = u' := by
            rw [hu'] at hu
            exact (Option.some.inj hu).symm
          subst huu
          exact hmockSome t u hc hu' hune
  · intro hnone t hc
    exact hmockNone t hc hnone
  · intro id u hm
    simp [combinedMocks, hm]
  · intro hm
    simp [combinedMocks, hm]
  · intro id hid hm
    simp [combinedMocks, hm, hid]

/-- Witness for C5 at concrete inputs: the default table alone, chain id
31337, no literal URL. -/
theorem resolveNetwork_mock_classification_witness :
    ((∃ r, resolveNetwork 31337 none (fun _ => none) = .ok (.mock 31337 r)) ↔
      combinedMocks (fun _ => none) 31337 ≠ none) ∧
    (combinedMocks (fun _ => none) 31337 = none →
      resolveNetwork 31337 none (fun _ => none) = .ok (.real 31337 none)) :=
  let h := resolveNetwork_mock_classification 31337 none (fun _ => none)
    (Or.inl rfl) (fun _ _ hc => Option.noConfusion hc)
  ⟨h.1, h.2.1⟩

/-- Membership in the first-occurrence dedup is membership in the
original list. -/
theorem mem_dedupFirst (a : String) : ∀ l, a ∈ dedupFirst l ↔ a ∈ l := by
  intro l
  induction l using dedupFirst.induct with
  | case1 => simp [dedupFirst]
  | case2 b rest ih =>
      by_cases hab : a = b
      · subst hab
        simp [dedupFirst]
      · rw [dedupFirst, List.mem_cons, ih, List.mem_filter]
        simp [hab]

/-- The first-occurrence dedup has no duplicates. -/
theorem dedupFirst_nodup : ∀ l, (dedupFirst l).Nodup := by
  intro l
  induction l using dedupFirst.induct with
  | case1 => simp [dedupFirst]
  | case2 b rest ih =>
      rw [dedupFirst, List.nodup_cons]
      refine ⟨fun hmem => ?_, ih⟩
      have hfil := (mem_dedupFirst b _).1 hmem
      simp [List.mem_filter] at hfil

/-- Positions survive filtering monotonically: if `x` occurs before `y`
in `l.filter p` then `x` occurs before `y` in `l`. -/
theorem indexOf_filter_lt (p : String → Bool) :
    ∀ (l : List String) (x y : String), x ∈ l.filter p → y ∈ l.filter p →
      (l.filter p).indexOf x < (l.filter p).indexOf y → l.indexOf x < l.indexOf y := by
  intro l
  induction l with
  | nil => intro x y hx _hy _hlt; simp at hx
  | cons a rest ih =>
      intro x y hx hy hlt
      by_cases hpa : p a = true
      · rw [List.filter_cons_of_pos hpa] at hx hy hlt
        by_cases hxa : x = a
        · subst hxa
          rw [List.indexOf_cons_self] at hlt
          have hya : y ≠ x := by
            intro h
            subst h
            rw [List.indexOf_cons_self] at hlt
            exact Nat.lt_irrefl 0 hlt
          rw [List.indexOf_cons_self]
          rw [List.indexOf_cons_ne _ (Ne.symm hya)]
          exact Nat.succ_pos _
        · have hya : y ≠ a := by
            intro h
            subst h
            rw [List.indexOf_cons_self] at hlt
            exact Nat.not_lt_zero _ hlt
          rw [List.indexOf_cons_ne _ (fun h => hxa h.symm)] at hlt
          rw [List.indexOf_cons_ne _ (fun h => hya h.symm)] at hlt
          have hx' : x ∈ rest.filter p := (List.mem_cons.1 hx).resolve_left hxa
          have hy' : y ∈ rest.filter p := (List.mem_cons.1 hy).resolve_left hya
          have hrec := ih x y hx' hy' (Nat.lt_of_succ_lt_succ hlt)
          rw [List.indexOf_cons_ne _ (fun h => hxa h.symm)]
          rw [List.indexOf_cons_ne _ (fun h => hya h.symm)]
          exact Nat.succ_lt_succ hrec
      · rw [List.filter_cons_of_neg hpa] at hx hy hlt
        have hxa : x ≠ a := fun h => hpa (h ▸ (List.mem_filter.1 hx).2)
        have hya : y ≠ a := fun h => hpa (h ▸ (List.mem_filter.1 hy).2)
        have hrec := ih x y hx hy hlt
        rw [List.indexOf_cons_ne _ (fun h => hxa h.symm)]
        rw [List.indexOf_cons_ne _ (fun h => hya h.symm)]
        exact Nat.succ_lt_succ hrec

/-- The first-occurrence dedup lists elements in order of their first
appearance: it is pairwise sorted by position in the original list. -/
theorem dedupFirst_pairwise :
    ∀ l : List String, (dedupFirst l).Pairwise (fun a b => l.indexOf a < l.indexOf b) := by
  intro l
  induction l using dedupFirst.induct with
  | case1 => simp [dedupFirst]
  | case2 b rest ih =>
      rw [dedupFirst, List.pairwise_cons]
      constructor
      · intro c hc
        have hcf : c ∈ rest.filter (fun x => x ≠ b) := (mem_dedupFirst c _).1 hc
        have hcb : c ≠ b := by
          have := (List.mem_filter.1 hcf).2
          simpa using this
        rw [List.indexOf_cons_self, List.indexOf_cons_ne _ (fun h => hcb h.symm)]
        exact Nat.succ_pos _
      · refine ih.imp_of_mem ?_
        intro x y hx hy hlt
        have hxf : x ∈ rest.filter (fun z => z ≠ b) := (mem_dedupFirst x _).1 hx
        have hyf : y ∈ rest.filter (fun z => z ≠ b) := (mem_dedupFirst y _).1 hy
        have hxb : x ≠ b := by
          have := (List.mem_filter.1 hxf).2
          simpa using this
        have hyb : y ≠ b := by
          have := (List.mem_filter.1 hyf).2
          simpa using this
        have hrest := indexOf_filter_lt _ rest x y hxf hyf hlt
        rw [List.indexOf_cons_ne _ (fun h => hxb h.symm)]
        rw [List.indexOf_cons_ne _ (fun h => hyb h.symm)]
        exact Nat.succ_lt_succ hrest

/-- C6: for every (non-empty) request list, `userDecrypt` scopes the
authorization signature request to the distinct contract addresses in
order of first appearance (the deduped list has no duplicates, has
exactly the addresses occurring in the requests, and is sorted by first
occurrence position); when the load-or-sign flow yields no signature it
fails with the signature-unavailable error; and otherwise it invokes the
instance's underlying `userDecrypt` exactly once — the call log has
exactly one entry — passing the request list through with duplicates
intact and in original order. -/
theorem userDecrypt_contract
    (loadOrSign : List String → Option DecryptionSig)
    (backend : List FHEDecryptRequest → DecryptionSig → Nat)
    (requests : List FHEDecryptRequest)
    (_hne : requests ≠ []) :
    ((dedupFirst (requests.map (·.contractAddress))).Nodup ∧
      (∀ a, a ∈ dedupFirst (requests.map (·.contractAddress)) ↔
        a ∈ requests.map (·.contractAddress)) ∧
      (dedupFirst (requests.map (·.contractAddress))).Pairwise
        (fun a b => (requests.map (·.contractAddress)).indexOf a <
          (requests.map (·.contractAddress)).indexOf b)) ∧
    (loadOrSign (dedupFirst (requests.map (·.contractAddress))) = none →
      userDecrypt loadOrSign backend requests =
        .error "Failed to create FHE decryption signature") ∧
    (∀ sig, loadOrSign (dedupFirst (requests.map (·.contractAddress))) = some sig →
      userDecrypt loadOrSign backend requests =
        .ok ((backend requests sig, sig), [(requests, sig)])) := by
  have hmap :
      (requests.map fun r => ({ handle := r.handle, contractAddress := r.contractAddress } :
        FHEDecryptRequest)) = requests := by
    simp
  refine ⟨⟨dedupFirst_nodup _, fun a => mem_dedupFirst a _, dedupFirst_pairwise _⟩, ?_, ?_⟩
  · intro hnone
    simp [userDecrypt, hnone]
  · intro sig hsig
    simp [userDecrypt, hsig, hmap]

/-- Witness for C6 at concrete inputs: two requests sharing one
contract address; a flow that yields no signature fails, one that yields
a signature leads to a single backend call with the duplicates kept. -/
theorem userDecrypt_contract_witness :
    (userDecrypt (fun _ => none) (fun _ _ => 0)
        [{ handle := "h1", contractAddress := "0xA" }, { handle := "h2", contractAddress := "0xA" }] =
      .error "Failed to create FHE decryption signature") ∧
    (∀ sig, (fun _ : List String => some sig) (dedupFirst
        (([{ handle := "h1", contractAddress := "0xA" },
           { handle := "h2", contractAddress := "0xA" }] : List FHEDecryptRequest).map
          (·.contractAddress))) = some sig →
      userDecrypt (fun _ => some sig) (fun _ _ => 0)
          [{ handle := "h1", contractAddress := "0xA" }, { handle := "h2", contractAddress := "0xA" }] =
        .ok ((0, sig),
          [([{ handle := "h1", contractAddress := "0xA" },
             { handle := "h2", contractAddress := "0xA" }], sig)])) :=
  ⟨(userDecrypt_contract (fun _ => none) (fun _ _ => 0)
      [{ handle := "h1", contractAddress := "0xA" }, { handle := "h2", contractAddress := "0xA" }]
      (by simp)).2.1 rfl,
   fun sig _ =>
    (userDecrypt_contract (fun _ => some sig) (fun _ _ => 0)
      [{ handle := "h1", contractAddress := "0xA" }, { handle := "h2", contractAddress := "0xA" }]
      (by simp)).2.2 sig rfl⟩

/-- C10: `buildParamsFromAbi` fails with the function-ABI-not-found
error when no entry of the ABI has type `"function"` and the given name;
and when the matching function's `inputs` list is absent or empty it
returns the empty argument list for every encrypt result — in
particular an empty encrypt result (no handles, no proof) cannot cause a
missing-proof or insufficient-handles failure for a zero-parameter
function. -/
theorem buildParamsFromAbi_not_found_and_empty :
    (∀ (abi : List AbiItem) (functionName : String) (enc : EncryptResult),
      (∀ item ∈ abi, ¬(item.type = "function" ∧ item.name = functionName)) →
      buildParamsFromAbi enc abi functionName =
        .error ("Function ABI not found for " ++ functionName)) ∧
    (∀ (abi : List AbiItem) (functionName : String) (fn : AbiItem) (enc : EncryptResult),
      abi.find? (fun item => item.type == "function" && item.name == functionName) = some fn →
      fn.inputs = none ∨ fn.inputs = some [] →
      buildParamsFromAbi enc abi functionName = .ok []) := by
  constructor
  · intro abi functionName enc hnone
    have hfind :
        abi.find? (fun item => item.type == "function" && item.name == functionName) = none := by
      rw [List.find?_eq_none]
      intro item hmem
      simpa using hnone item hmem
    simp [buildParamsFromAbi, hfind]
  · intro abi functionName fn enc hfind hinputs
    rcases hinputs with h | h <;> simp [buildParamsFromAbi, hfind, h]

/-- Witness for C10 at concrete inputs: an ABI with only an event entry
named `f` (not a function), and a zero-parameter function with an empty
encrypt result. -/
theorem buildParamsFromAbi_not_found_and_empty_witness :
    buildParamsFromAbi { handles := [], inputProof := none }
        [{ type := "event", name := "f", inputs := none }] "f" =
      .error ("Function ABI not found for " ++ "f") ∧
    buildParamsFromAbi { handles := [], inputProof := none }
        [{ type := "function", name := "g", inputs := some [] }] "g" = .ok [] :=
  ⟨buildParamsFromAbi_not_found_and_empty.1
      [{ type := "event", name := "f", inputs := none }] "f"
      { handles := [], inputProof := none }
      (by intro item hmem; simp at hmem; simp [hmem]),
   buildParamsFromAbi_not_found_and_empty.2
      [{ type := "function", name := "g", inputs := some [] }] "g"
      { type := "function", name := "g", inputs := some [] }
      { handles := [], inputProof := none }
      (by simp) (Or.inr rfl)⟩

/-- When there are exactly as many remaining handles as non-proof
parameters, the `buildParamsFromAbi` loop computes exactly the
specification-side selection: non-proof parameters consume the remaining
handles in order and proof parameters consume the input proof. -/
theorem buildLoop_selected (p : Bytes) (handles : List Bytes) :
    ∀ (inputs : List AbiInput) (k : Nat) (pc : Bool) (idx : Nat),
      (handles.drop k).length = nonProofCount inputs →
      buildLoop { handles := handles, inputProof := some p } inputs k pc idx =
        coerceAll (selectedRaws p inputs (handles.drop k)) := by
  intro inputs
  induction inputs with
  | nil => intro k pc idx _h; simp [buildLoop, selectedRaws, coerceAll]
  | cons input rest ih =>
      intro k pc idx h
      by_cases hproof : isProofParameter input = true
      · have hcount : nonProofCount (input :: rest) = nonProofCount rest := by
          simp [nonProofCount, List.filter_cons, hproof]
        rw [hcount] at h
        simp only [buildLoop, hproof, if_true, selectedRaws, coerceAll]
        rw [ih k true (idx + 1) h]
      · have hproof' : isProofParameter input = false := by
          simpa using hproof
        have hcount : nonProofCount (input :: rest) = nonProofCount rest + 1 := by
          simp [nonProofCount, List.filter_cons, hproof']
        rw [hcount] at h
        have hklt : k < handles.length := by
          by_contra hk
          push_neg at hk
          have hnil : handles.drop k = [] := List.drop_eq_nil_iff.2 hk
          rw [hnil] at h
          simp at h
        have hdrop : handles.drop k = handles[k] :: handles.drop (k + 1) :=
          List.drop_eq_getElem_cons hklt
        have hget : handles[k]? = some handles[k] := List.getElem?_eq_getElem hklt
        have hlen : (handles.drop (k + 1)).length = nonProofCount rest := by
          rw [hdrop, List.length_cons] at h
          exact Nat.succ_injective h
        rw [hdrop]
        simp only [buildLoop, hproof', Bool.false_eq_true, if_false, hget, selectedRaws, coerceAll]
        rw [ih (k + 1) pc (idx + 1) hlen]

/-- When no parameter is proof-nameable and there is exactly one more
parameter than remaining handles, the loop pairs each parameter in order
with the corresponding element of `handles ++ [proof]`: the handles in
order, then the proof at the first parameter reached after the handles
are exhausted. -/
theorem buildLoop_fallback (p : Bytes) (handles : List Bytes) :
    ∀ (inputs : List AbiInput) (k idx : Nat),
      (∀ i ∈ inputs, isProofParameter i = false) →
      (handles.drop k).length + 1 = inputs.length →
      buildLoop { handles := handles, inputProof := some p } inputs k false idx =
        coerceAll (inputs.zip (handles.drop k ++ [p])) := by
  intro inputs
  induction inputs with
  | nil => intro k idx _hnp h; simp at h
  | cons input rest ih =>
      intro k idx hnp h
      have hproof' : isProofParameter input = false := hnp input (List.mem_cons_self input rest)
      by_cases hklt : k < handles.length
      · have hdrop : handles.drop k = handles[k] :: handles.drop (k + 1) :=
          List.drop_eq_getElem_cons hklt
        have hget : handles[k]? = some handles[k] := List.getElem?_eq_getElem hklt
        have hlen : (handles.drop (k + 1)).length + 1 = rest.length := by
          rw [hdrop, List.length_cons] at h
          exact Nat.succ_injective h
        rw [hdrop]
        simp only [buildLoop, hproof', Bool.false_eq_true, if_false, hget,
          List.cons_append, List.zip_cons_cons, coerceAll]
        rw [ih (k + 1) (idx + 1) (fun i hi => hnp i (List.mem_cons_of_mem input hi)) hlen]
        rfl
      · push_neg at hklt
        have hnil : handles.drop k = [] := List.drop_eq_nil_iff.2 hklt
        have hget : handles[k]? = none := List.getElem?_eq_none hklt
        have hrest : rest = [] := by
          rw [hnil] at h
          simp only [List.length_nil, List.length_cons] at h
          exact List.length_eq_zero.1 (Nat.succ_injective h).symm
        subst hrest
        rw [hnil]
        simp [buildLoop, hproof', hget, coerceAll]

/-- C3: `mapToContractParams` (`buildParamsFromAbi`) round trip.  (a)
For an ABI function with N non-proof parameters, an encrypt result with
exactly N handles and an input proof, the produced argument list is the
coercion of the specification-side selection `selectedRaws`: every
handle is consumed exactly once in parameter declaration order and the
proof is consumed at every parameter whose name or internal type
contains `"proof"` case-insensitively.  (b) If no parameter is
proof-nameable and there is exactly one more parameter than handles, the
parameters are paired in order with `handles ++ [proof]`: the proof is
consumed by the first parameter reached after the handles are exhausted.
(c) Concretely, `increment(externalEuint32, bytes)` with one handle
`0xaa` and proof `0xbbcc` yields `[hex(handle), hex(proof)]` in that
order. -/
theorem buildParamsFromAbi_round_trip :
    (∀ (abi : List AbiItem) (functionName : String) (fn : AbiItem)
        (inputs : List AbiInput) (handles : List Bytes) (p : Bytes),
      abi.find? (fun item => item.type == "function" && item.name == functionName) = some fn →
      fn.inputs = some inputs →
      handles.length = nonProofCount inputs →
      buildParamsFromAbi { handles := handles, inputProof := some p } abi functionName =
        coerceAll (selectedRaws p inputs handles)) ∧
    (∀ (abi : List AbiItem) (functionName : String) (fn : AbiItem)
        (inputs : List AbiInput) (handles : List Bytes) (p : Bytes),
      abi.find? (fun item => item.type == "function" && item.name == functionName) = some fn →
      fn.inputs = some inputs →
      (∀ i ∈ inputs, isProofParameter i = false) →
      handles.length + 1 = inputs.length →
      buildParamsFromAbi { handles := handles, inputProof := some p } abi functionName =
        coerceAll (inputs.zip (handles ++ [p]))) ∧
    (buildParamsFromAbi
        { handles := [[(0xaa : Fin 256)]], inputProof := some [(0xbb : Fin 256), (0xcc : Fin 256)] }
        incrementAbi "increment" =
      .ok [.str "0xaa", .str "0xbbcc"]) := by
  refine ⟨?_, ?_, ?_⟩
  · intro abi functionName fn inputs handles p hfind hinputs hcount
    cases inputs with
    | nil => simp [buildParamsFromAbi, hfind, hinputs, selectedRaws, coerceAll]
    | cons input rest =>
        have hbuild := buildLoop_selected p handles (input :: rest) 0 false 0
          (by simpa using hcount)
        rw [List.drop_zero] at hbuild
        simp [buildParamsFromAbi, hfind, hinputs, hbuild]
  · intro abi functionName fn inputs handles p hfind hinputs hnp hcount
    cases inputs with
    | nil => simp at hcount
    | cons input rest =>
        have hbuild := buildLoop_fallback p handles (input :: rest) 0 0 hnp
          (by simpa using hcount)
        rw [List.drop_zero] at hbuild
        simp [buildParamsFromAbi, hfind, hinputs, hbuild]
  · rfl

/-- Witness for C3 at concrete inputs: a `transfer(bytes32, bytes
proof)` style ABI with a proof-named second parameter, one handle and a
proof. -/
theorem buildParamsFromAbi_round_trip_witness :
    buildParamsFromAbi
        { handles := [[(0x11 : Fin 256)]], inputProof := some [(0x22 : Fin 256)] }
        [{ type := "function", name := "transfer",
           inputs := some
             [ { type := "bytes32", name := some "amount", internalType := some "externalEuint64" }
             , { type := "bytes", name := some "inputProof", internalType := some "bytes" } ] }]
        "transfer" =
      coerceAll (selectedRaws [(0x22 : Fin 256)]
        [ { type := "bytes32", name := some "amount", internalType := some "externalEuint64" }
        , { type := "bytes", name := some "inputProof", internalType := some "bytes" } ]
        [[(0x11 : Fin 256)]]) :=
  buildParamsFromAbi_round_trip.1
    [{ type := "function", name := "transfer",
       inputs := some
         [ { type := "bytes32", name := some "amount", internalType := some "externalEuint64" }
         , { type := "bytes", name := some "inputProof", internalType := some "bytes" } ] }]
    "transfer"
    { type := "function", name := "transfer",
      inputs := some
        [ { type := "bytes32", name := some "amount", internalType := some "externalEuint64" }
        , { type := "bytes", name := some "inputProof", internalType := some "bytes" } ] }
    [ { type := "bytes32", name := some "amount", internalType := some "externalEuint64" }
    , { type := "bytes", name := some "inputProof", internalType := some "bytes" } ]
    [[(0x11 : Fin 256)]] [(0x22 : Fin 256)]
    (by rfl) rfl (by rfl)

end FhevmSdk
